import Mathlib

/-!
Shallow embedding of the Overlord render-session orchestrator
(Electron main process, `src/unnamed/part_014`) and of the archiving
pipeline (`src/scripts/constructZipper.js`), together with theorems
settling the frozen claims about them.

File-system reads, JSON parsing and process spawning are external
effects; they are embedded as explicit data: a descriptor file is the
abstract outcome of reading and parsing it, a directory is a finite
tree value, and a possibly-locked directory removal is a function from
attempt index to lock status.  Every branch of the JS source (including
each catch branch) maps to a branch of the corresponding Lean
definition.
-/

namespace Overlord

/-! ## Expected Output Calculator (part_014 lines 186–291) -/

/-- Outcome of reading and JSON-parsing an animation descriptor file, as
consumed by `getFramesFromAnimationFile` (part_014 lines 186–221):
`missing` = `fs.existsSync` is false; `unreadable` = `readFileSync` or
`JSON.parse` threw (the catch branch at line 217); `noScene` = parsed
JSON has no `scene.animations`; `scene anims` = the `scene.animations`
array, where each element records `keys.length` when the animation has
a `keys` field and `none` when it does not. -/
inductive AnimFile where
  | missing
  | unreadable
  | noScene
  | scene (anims : List (Option Nat))
deriving DecidableEq

/-- Outcome of reading and JSON-parsing a subject descriptor file, as
consumed by `getAnglesFromSubjectFile` (part_014 lines 223–249):
`missing` = `fs.existsSync` false; `unreadable` = read/parse threw;
`noAngles` = no `asset_info.angles` attribute; `nonNumber` = the
attribute is present but not a JS number; `number q` = a numeric
attribute (JS numbers are embedded as rationals). -/
inductive SubjectFile where
  | missing
  | unreadable
  | noAngles
  | nonNumber
  | number (q : ℚ)
deriving DecidableEq

/-- Abstract file system: what reading a given path as a subject
descriptor, resp. an animation descriptor, yields. -/
structure FS where
  subject : String → SubjectFile
  anim : String → AnimFile

/-- Loop of `getFramesFromAnimationFile` over `scene.animations`
(part_014 lines 201–209): for each animation with a `keys` field, if
`keys.length > 1` return it at once, otherwise keep scanning; return
the default 1 when the loop ends. -/
def framesScan : List (Option Nat) → Nat
  | [] => 1
  | none :: rest => framesScan rest
  | some n :: rest => if 1 < n then n else framesScan rest

/-- Body of `getFramesFromAnimationFile` after the path checks
(part_014 lines 195–220), by case on the read outcome. -/
def framesOfFile : AnimFile → Nat
  | .missing => 1
  | .unreadable => 1
  | .noScene => 1
  | .scene anims => framesScan anims

/-- Embedding of `getFramesFromAnimationFile(animationFilepath)`
(part_014 lines 186–221).  The `!animationFilepath` guard at line 190
is the empty-string test. -/
def getFramesFromAnimationFile (fs : FS) (animationFilepath : String) : Nat :=
  if animationFilepath = "" then 1
  else framesOfFile (fs.anim animationFilepath)

/-- Body of `getAnglesFromSubjectFile` after the path checks
(part_014 lines 232–247): a numeric `asset_info.angles` is used only
when positive, every other outcome falls back to the default 16. -/
def anglesOfFile : SubjectFile → ℚ
  | .number q => if 0 < q then q else 16
  | _ => 16

/-- Embedding of `getAnglesFromSubjectFile(subjectFilepath)`
(part_014 lines 223–249). -/
def getAnglesFromSubjectFile (fs : FS) (subjectFilepath : String) : ℚ :=
  if subjectFilepath = "" then 16
  else anglesOfFile (fs.subject subjectFilepath)

/-- JS `String.prototype.trim` on character lists: strip whitespace
from both ends (the paths involved are ASCII, where the JS and Lean
whitespace predicates agree). -/
def jsTrim (s : String) : String :=
  String.mk (((s.data.dropWhile Char.isWhitespace).reverse.dropWhile
    Char.isWhitespace).reverse)

/-- Guard at part_014 lines 252–255: a null/empty animation list (or a
falsy first element) is replaced by the one-element list `['static']`. -/
def animsOrStatic : Option (List String) → List String
  | none => ["static"]
  | some [] => ["static"]
  | some (a :: rest) => if a = "" then ["static"] else a :: rest

/-- Gear multiplier of `calculateTotalImages` (part_014 lines 257–264):
1 when the gear list is null/empty or its first entry is blank,
otherwise the number of non-blank gear entries. -/
def gearCount : Option (List String) → Nat
  | none => 1
  | some [] => 1
  | some (g :: rest) =>
    if g = "" ∨ jsTrim g = "" then 1
    else ((g :: rest).filter (fun x => !(x == "") && !(jsTrim x == ""))).length

/-- Per-animation frame count inside the loop of `calculateTotalImages`
(part_014 lines 269–281): the literal `'static'` entry and blank
entries count 1 frame, anything else is read via
`getFramesFromAnimationFile` on the trimmed path. -/
def framesForEntry (fs : FS) (p : String) : Nat :=
  if p = "static" ∨ jsTrim p = "" then 1
  else getFramesFromAnimationFile fs (jsTrim p)

/-- Embedding of `calculateTotalImages(subjectFilepath,
animationFilepaths, gearFilepaths, renderShadows)` (part_014 lines
251–291): sum over the effective animation list of
angles × frames × gearCount, doubled when `renderShadows` is set. -/
def calculateTotalImages (fs : FS) (subjectFilepath : String)
    (animationFilepaths gearFilepaths : Option (List String))
    (renderShadows : Bool) : ℚ :=
  let gc : Nat := gearCount gearFilepaths
  let angles : ℚ := getAnglesFromSubjectFile fs subjectFilepath
  let anims := animsOrStatic animationFilepaths
  let total : ℚ := (anims.map (fun a => angles * (framesForEntry fs a : ℚ) * (gc : ℚ))).sum
  if renderShadows then 2 * total else total

/-- Reading of the spec sentence behind claim C2, stated from the
spec's words for comparison with the source embedding: frame count =
"the largest keyframe-array length found" among the embedded
animations, "default 1 if none found or file unreadable". -/
def specLargestFrames : AnimFile → Nat
  | .scene anims =>
    match anims.filterMap id with
    | [] => 1
    | l => l.foldr max 0
  | _ => 1

/-! ## Output Directory Scanner (part_014 lines 293–325, 718–746) -/

mutual
/-- Node of a directory tree as observed by the recursive walks:
a plain file with its name and modification time (ms since epoch), or
a subdirectory whose `readable` flag is false when `fs.readdirSync`
on it throws (the catch branches at part_014 lines 316–318 and
739–741). -/
inductive DirTree where
  | file (name : String) (mtime : Int)
  | dir (name : String) (readable : Bool) (entries : DirList)

/-- Entry list of a directory, in `readdirSync` order. -/
inductive DirList where
  | nil
  | cons (head : DirTree) (tail : DirList)
end

/-- An element of the `imageFiles` array built by `findNewestImage`
(part_014 line 308): `{ path: filePath, mtime: stat.mtime.getTime() }`. -/
structure ImageEntry where
  path : String
  mtime : Int
deriving DecidableEq, Repr

/-- Constant `IMAGE_EXTENSIONS = ['.png']` (part_014 line 20). -/
def IMAGE_EXTENSIONS : List String := [".png"]

/-- Test `IMAGE_EXTENSIONS.some(ext => file.toLowerCase().endsWith(ext))`
(part_014 line 307), on character lists (the extensions and file names
involved are ASCII, where JS `toLowerCase` and `Char.toLower` agree). -/
def isImageName (name : String) : Bool :=
  IMAGE_EXTENSIONS.any (fun ext => ext.data.isSuffixOf (name.data.map Char.toLower))

/-- Constant `maxFiles = 100` of `findNewestImage` (part_014 line 295). -/
def MAX_FILES : Nat := 100

/-- Descending-by-mtime ordering used by the sort callback
`(a, b) => b.mtime - a.mtime` (part_014 lines 311 and 322). -/
def mtimeGe (a b : ImageEntry) : Prop := b.mtime ≤ a.mtime

instance : DecidableRel mtimeGe := fun a b => inferInstanceAs (Decidable (b.mtime ≤ a.mtime))

instance : IsTotal ImageEntry mtimeGe := ⟨fun a b => le_total b.mtime a.mtime⟩

instance : IsTrans ImageEntry mtimeGe := ⟨fun _ _ _ hab hbc => le_trans hbc hab⟩

/-- Sort of the `imageFiles` array, descending by modification time. -/
def sortByMtimeDesc (l : List ImageEntry) : List ImageEntry :=
  List.insertionSort mtimeGe l

/-- In-walk pruning of `findNewestImage` (part_014 lines 310–313): once
more than `maxFiles * 2` entries accumulated, sort descending and
`splice(maxFiles)` (keep the first `maxFiles`). -/
def pruneStep (l : List ImageEntry) : List ImageEntry :=
  if MAX_FILES * 2 < l.length then (sortByMtimeDesc l).take MAX_FILES else l

mutual
/-- Per-entry step of `walkDir` in `findNewestImage` (part_014 lines
301–314): a subdirectory is recursed into when readable and skipped
otherwise; a file is appended (then pruned) when its name carries an
image extension.  Paths are joined with a forward slash. -/
def walkTree (acc : List ImageEntry) (parent : String) : DirTree → List ImageEntry
  | .file name mtime =>
      if isImageName name then pruneStep (acc ++ [⟨parent ++ "/" ++ name, mtime⟩]) else acc
  | .dir name readable entries =>
      if readable then walkList acc (parent ++ "/" ++ name) entries else acc

/-- Left-to-right fold of `walkTree` over a directory's entries. -/
def walkList (acc : List ImageEntry) (parent : String) : DirList → List ImageEntry
  | .nil => acc
  | .cons e es => walkList (walkTree acc parent e) parent es
end

/-- Accumulated `imageFiles` array after `walkDir(directory)` has
returned (part_014 line 321): the root is read like any directory
(an unreadable root, or a root that is not a directory at all, makes
`readdirSync` throw and yields no entries). -/
def findNewestImageEntries : DirTree → List ImageEntry
  | .file _ _ => []
  | .dir name readable entries => if readable then walkList [] name entries else []

/-- Embedding of `findNewestImage(directory)` (part_014 lines 293–325):
final descending sort, `slice(0, maxFiles)`, and projection to paths. -/
def findNewestImage (directory : DirTree) : List String :=
  ((sortByMtimeDesc (findNewestImageEntries directory)).take MAX_FILES).map ImageEntry.path

/-- Sorted image list before the path projection, needed to state the
ordering claims. -/
def findNewestImageSorted (directory : DirTree) : List ImageEntry :=
  (sortByMtimeDesc (findNewestImageEntries directory)).take MAX_FILES

/-- Strict descending order by modification time, as claim C5 words
it: every entry's modification time is strictly greater than the
next one's. -/
def strictDescByMtime : List ImageEntry → Bool
  | [] => true
  | [_] => true
  | a :: b :: rest => (decide (b.mtime < a.mtime)) && strictDescByMtime (b :: rest)

/-! ## Progress Estimator (part_014 lines 327–404 and 718–824) -/

mutual
/-- Image counting walk of `countImagesInDirectory` (part_014 lines
721–742): contribution of one entry. -/
def countImagesTree : DirTree → Nat
  | .file name _ => if isImageName name then 1 else 0
  | .dir _ readable entries => if readable then countImagesList entries else 0

/-- Image counting walk over a directory's entries. -/
def countImagesList : DirList → Nat
  | .nil => 0
  | .cons e es => countImagesTree e + countImagesList es
end

/-- Embedding of `countImagesInDirectory(directory)` (part_014 lines
718–746); the root directory is read like any other. -/
def countImagesInDirectory : DirTree → Nat
  | .file _ _ => 0
  | .dir _ readable entries => if readable then countImagesList entries else 0

/-- An element of the `filesWithTimes` array of
`calculateAverageRenderTime` (part_014 line 358): path and
modification time in seconds (`stat.mtime.getTime() / 1000`). -/
structure TimedFile where
  path : String
  mtime : ℚ
deriving DecidableEq, Repr

/-- Qualification test at part_014 lines 353–356: a file is skipped
when `renderStartTime` is truthy (non-null and non-zero) and the file's
time in seconds is before `renderStartTime / 1000`. -/
def qualifies (renderStartTime : Option Int) (mtimeSec : ℚ) : Bool :=
  match renderStartTime with
  | none => true
  | some t0 => if t0 = 0 then true else !(mtimeSec < (t0 : ℚ) / 1000)

mutual
/-- Collection walk of `calculateAverageRenderTime` (part_014 lines
340–364): push each image file whose time qualifies. -/
def collectTimesTree (rst : Option Int) (acc : List TimedFile) (parent : String) :
    DirTree → List TimedFile
  | .file name mtime =>
      if isImageName name then
        if qualifies rst ((mtime : ℚ) / 1000) then
          acc ++ [⟨parent ++ "/" ++ name, (mtime : ℚ) / 1000⟩]
        else acc
      else acc
  | .dir name readable entries =>
      if readable then collectTimesList rst acc (parent ++ "/" ++ name) entries else acc

/-- Collection walk over a directory's entries. -/
def collectTimesList (rst : Option Int) (acc : List TimedFile) (parent : String) :
    DirList → List TimedFile
  | .nil => acc
  | .cons e es => collectTimesList rst (collectTimesTree rst acc parent e) parent es
end

/-- The `filesWithTimes` array after `walkDir(directory)` has returned
(part_014 line 366). -/
def filesWithTimes (rst : Option Int) : DirTree → List TimedFile
  | .file _ _ => []
  | .dir name readable entries =>
      if readable then collectTimesList rst [] name entries else []

/-- Descending ordering for the sort `(a, b) => b.mtime - a.mtime`
at part_014 line 373. -/
def timedGe (a b : TimedFile) : Prop := b.mtime ≤ a.mtime

instance : DecidableRel timedGe := fun a b => inferInstanceAs (Decidable (b.mtime ≤ a.mtime))

instance : IsTotal TimedFile timedGe := ⟨fun a b => le_total b.mtime a.mtime⟩

instance : IsTrans TimedFile timedGe := ⟨fun _ _ _ hab hbc => le_trans hbc hab⟩

/-- Sort of `filesWithTimes`, newest first. -/
def sortTimedDesc (l : List TimedFile) : List TimedFile :=
  List.insertionSort timedGe l

/-- Embedding of `calculateAverageRenderTime(directory, maxFiles)`
(part_014 lines 327–404): `none` models the `null` returns (fewer than
2 qualifying files, fewer than 2 recent files, or no positive
interval); otherwise the average of the positive pairwise intervals
between consecutive recent files. -/
def calculateAverageRenderTime (rst : Option Int) (directory : DirTree)
    (maxFiles : Nat) : Option ℚ :=
  let files := filesWithTimes rst directory
  if files.length < 2 then none
  else
    let recentFiles := (sortTimedDesc files).take maxFiles
    if recentFiles.length < 2 then none
    else
      let intervals := (recentFiles.zip recentFiles.tail).filterMap
        (fun p => if 0 < p.1.mtime - p.2.mtime then some (p.1.mtime - p.2.mtime) else none)
      if intervals.length = 0 then none
      else some (intervals.sum / (intervals.length : ℚ))

/-- Estimated-completion value of a progress sample: a concrete
completion instant (`Date.now() + remaining × avg × 1000` ms), or one
of the two sentinel strings `'Calculating...'` / `'Complete'`
(part_014 lines 785–813). -/
inductive ETA where
  | completionAt (time : ℚ)
  | calculating
  | complete
deriving DecidableEq, Repr

/-- ETA branch of the monitoring tick (part_014 lines 785–813):
with work remaining, a completion instant when the average render time
is truthy and positive, the `'Calculating...'` sentinel otherwise;
with no work remaining, the `'Complete'` sentinel. -/
def estimatedCompletionOf (now : ℚ) (remaining : ℚ) (avg : Option ℚ) : ETA :=
  if 0 < remaining then
    match avg with
    | some a => if a ≠ 0 ∧ 0 < a then ETA.completionAt (now + remaining * a * 1000) else .calculating
    | none => .calculating
  else .complete

/-- Progress payload sent on the `render-progress` channel
(part_014 lines 815–822). -/
structure ProgressSample where
  totalImages : ℚ
  renderedCount : Nat
  sessionCount : Int
  remaining : ℚ
  progressPercent : ℚ
  estimatedCompletion : ETA
deriving DecidableEq, Repr

/-- Progress part of one tick of the interval installed by
`startFileMonitoring` (part_014 lines 779–823), while a render is
active: recount the tree, derive remaining/percent, and attach the ETA
computed from `calculateAverageRenderTime` with its default
`maxFiles = 10`. -/
def monitorTick (now : ℚ) (rst : Option Int) (initialTotalImages : ℚ)
    (sessionStartImageCount : Nat) (directory : DirTree) : ProgressSample :=
  let renderedCount := countImagesInDirectory directory
  let remaining : ℚ := max 0 (initialTotalImages - renderedCount)
  { totalImages := initialTotalImages
    renderedCount := renderedCount
    sessionCount := max 0 ((renderedCount : Int) - (sessionStartImageCount : Int))
    remaining := remaining
    progressPercent :=
      if 0 < initialTotalImages then (renderedCount : ℚ) / initialTotalImages * 100 else 0
    estimatedCompletion :=
      estimatedCompletionOf now remaining (calculateAverageRenderTime rst directory 10) }

/-! ## Render Session Controller (part_014 lines 595–712 and 1305–1316) -/

/-- Request fields consumed by `startRender(settings)` (part_014 lines
595–705).  The two list fields are `Option` because the JS code guards
them against `undefined`; the remaining fields it consumes (instance
count, frame rate, etc.) only flow into the job descriptor handed to
the external workers and never influence the controller state. -/
structure RenderSettings where
  subject : String
  animations : Option (List String)
  gear : Option (List String)
  render_shadows : Bool
deriving Repr

/-- Module-level mutable session state of the controller (part_014
lines 63–69): `isRendering`, `initialTotalImages`,
`sessionStartImageCount`, `renderStartTime`, and whether the
file-monitoring interval of `startFileMonitoring` is installed
(`fileWatcherHandle !== null`). -/
structure ControllerState where
  isRendering : Bool
  initialTotalImages : ℚ
  sessionStartImageCount : Nat
  renderStartTime : Option Int
  fileMonitoring : Bool
deriving DecidableEq, Repr

/-- External facts `startRender` consults: the current clock, the
descriptor file system, the output tree scanned for the baseline
count, and whether the renderer executable and the driver script
exist (part_014 lines 601, 604, 616, 666, 670). -/
structure StartEnv where
  now : Int
  fs : FS
  outputDir : DirTree
  dazExecutableExists : Bool
  renderScriptExists : Bool

/-- The three throw sites of `startRender`: `'Render already in
progress'` (line 597), `'DAZ Studio executable not found'` (line 667),
`'Render script not found'` (line 671). -/
inductive StartError where
  | alreadyRunning
  | dazStudioNotFound
  | renderScriptNotFound
deriving DecidableEq, Repr

/-- Embedding of `startRender(settings)` (part_014 lines 595–705).
The returned state is the value of the module globals when the call
returns or throws: the `isRendering` guard throws before touching
anything; the two executable checks throw after `isRendering`,
`renderStartTime`, `initialTotalImages` and `sessionStartImageCount`
have already been mutated and before any worker process is spawned
(the spawn loop is at lines 678–697); on success the monitoring
interval is installed.  Directory creation, job-descriptor
serialization and process spawning are external effects with no
further influence on this state. -/
def startRender (env : StartEnv) (settings : RenderSettings) (st : ControllerState) :
    ControllerState × Except StartError Unit :=
  if st.isRendering then (st, .error .alreadyRunning)
  else
    let st1 : ControllerState :=
      { st with
          isRendering := true
          renderStartTime := some env.now
          initialTotalImages :=
            calculateTotalImages env.fs settings.subject settings.animations
              settings.gear settings.render_shadows
          sessionStartImageCount := countImagesInDirectory env.outputDir }
    if !env.dazExecutableExists then (st1, .error .dazStudioNotFound)
    else if !env.renderScriptExists then (st1, .error .renderScriptNotFound)
    else ({ st1 with fileMonitoring := true }, .ok ())

/-- Shape of the objects returned over IPC by the `start-render` and
`stop-render` handlers (part_014 lines 704, 711, 1305–1316). -/
structure IpcResult where
  success : Bool
  message : String
deriving DecidableEq, Repr

/-- Message text of each `startRender` throw site (the two not-found
messages also interpolate the missing path, elided here). -/
def StartError.text : StartError → String
  | .alreadyRunning => "Render already in progress"
  | .dazStudioNotFound => "DAZ Studio executable not found"
  | .renderScriptNotFound => "Render script not found"

/-- Embedding of the `ipcMain.handle('start-render')` wrapper
(part_014 lines 1305–1312): a throw from `startRender` is caught and
turned into `{ success: false, message }`, with no rollback of the
session state. -/
def startRenderHandler (env : StartEnv) (settings : RenderSettings)
    (st : ControllerState) : ControllerState × IpcResult :=
  match startRender env settings st with
  | (st1, .ok _) => (st1, ⟨true, "Render started successfully"⟩)
  | (st1, .error e) => (st1, ⟨false, e.text⟩)

/-- Retry parameters of the `fs.rmSync` call that removes the Iray
Server working directory (part_014 lines 459–464): `maxRetries: 10`,
`retryDelay: 1000`. -/
def RM_MAX_RETRIES : Nat := 10

/-- Base retry delay in milliseconds of the same `fs.rmSync` call. -/
def RM_RETRY_DELAY_MS : Nat := 1000

/-- Retry loop of Node's `fs.rmSync` with `recursive: true, force:
true`: the attempt at index `i` succeeds iff the directory is no
longer locked at that attempt; after a failed attempt the call retries
while retries remain, and the whole call fails once the initial
attempt and all `maxRetries` retries have failed.  `lockedAt i` tells
whether a transient lock is still held at attempt `i`. -/
def rmRetryLoop (lockedAt : Nat → Bool) : Nat → Nat → Bool
  | attempt, 0 => !(lockedAt attempt)
  | attempt, retriesLeft + 1 =>
    if lockedAt attempt then rmRetryLoop lockedAt (attempt + 1) retriesLeft else true

/-- Outcome of `fs.rmSync(dir, { recursive, force, maxRetries,
retryDelay })`: true when some attempt among the `1 + maxRetries`
attempts succeeds. -/
def rmSyncRecursive (lockedAt : Nat → Bool) (maxRetries : Nat) : Bool :=
  rmRetryLoop lockedAt 0 maxRetries

/-- External facts consulted by `stopIrayServer` (part_014 lines
426–481): whether the Iray Server working directory exists, the lock
status of that directory per removal attempt, and how many Iray
processes the `taskkill` loop managed to kill. -/
structure StopEnv where
  irayDirExists : Bool
  lockedAt : Nat → Bool
  killedIrayCount : Nat

/-- Observable outcome of `stopIrayServer` (part_014 lines 426–481):
its return value (1 when it killed a process, else 0), and what the
directory-cleanup try/catch did — on failure the catch branch at lines
466–469 logs `console.error` and continues, and the function still
returns normally. -/
structure IrayStopOutcome where
  retVal : Nat
  cleanupAttempted : Bool
  cleanupSucceeded : Bool
  cleanupFailureLogged : Bool
deriving DecidableEq, Repr

/-- Embedding of `stopIrayServer()` (part_014 lines 426–481). -/
def stopIrayServer (env : StopEnv) : IrayStopOutcome :=
  let cleaned := rmSyncRecursive env.lockedAt RM_MAX_RETRIES
  { retVal := if 0 < env.killedIrayCount then 1 else 0
    cleanupAttempted := env.irayDirExists
    cleanupSucceeded := !env.irayDirExists || cleaned
    cleanupFailureLogged := env.irayDirExists && !cleaned }

/-- Observable outcome of `stopRender()` (part_014 lines 707–712):
the controller state after the call, the object returned to the
caller, and whether a cleanup failure was logged along the way (the
log is the only trace of it — it does not reach the return value). -/
structure StopOutcome where
  state : ControllerState
  result : IpcResult
  cleanupFailureLogged : Bool
deriving DecidableEq, Repr

/-- Embedding of `stopRender()` (part_014 lines 707–712): clear
`isRendering`, cancel the monitoring interval, run
`stopAllRenderProcesses` (which calls `stopIrayServer`), and return
`{ success: true }` unconditionally. -/
def stopRender (env : StopEnv) (st : ControllerState) : StopOutcome :=
  { state := { st with isRendering := false, fileMonitoring := false }
    result := ⟨true, "Render stopped successfully"⟩
    cleanupFailureLogged := (stopIrayServer env).cleanupFailureLogged }

/-! ## Archiving Pipeline (constructZipper.js) -/

/-- Split a character list at the first occurrence of `c`: the part
before it and the part after it, or `none` when `c` does not occur. -/
def breakFirst (c : Char) : List Char → Option (List Char × List Char)
  | [] => none
  | x :: xs =>
    if x = c then some ([], xs)
    else
      match breakFirst c xs with
      | some (a, b) => some (x :: a, b)
      | none => none

/-- Split a character list at the last occurrence of `c`. -/
def breakLast (c : Char) (l : List Char) : Option (List Char × List Char) :=
  match breakFirst c l.reverse with
  | some (a, b) => some (b.reverse, a.reverse)
  | none => none

/-- JS `String.prototype.split` with a one-character separator. -/
def splitAllChar (c : Char) : List Char → List (List Char)
  | [] => [[]]
  | x :: xs =>
    let rest := splitAllChar c xs
    if x = c then [] :: rest
    else
      match rest with
      | [] => [[x]]
      | r :: rs => (x :: r) :: rs

/-- Node `path.parse(filename).name`: the file name with its final
extension removed; a leading-dot name with no further dot is its own
stem. -/
def stemOf (filename : String) : String :=
  match breakLast '.' filename.data with
  | some (a, _) => if a = [] then filename else String.mk a
  | none => filename

/-- Match of the strict grammar `/^([^-]+)-([^_]+)_(.+)-\d+$/`
(constructZipper.js line 18) against a stem, returning the three
captures (prefix, action, rotation).  The regex is deterministic:
the first group must stop at the first `-`, the second at the first
following `_`, and the digit run can only start at the last `-`. -/
def parseStrict (stem : List Char) : Option (List Char × List Char × List Char) :=
  match breakFirst '-' stem with
  | none => none
  | some (a, rest1) =>
    if a = [] then none
    else
      match breakFirst '_' rest1 with
      | none => none
      | some (b, rest2) =>
        if b = [] then none
        else
          match breakLast '-' rest2 with
          | none => none
          | some (c, d) =>
            if c = [] then none
            else if d = [] then none
            else if d.all Char.isDigit then some (a, b, c) else none

/-- Result record of `parseFilename` (constructZipper.js lines 12–41):
`{ prefix, action, baseName }` (the `prefix` field is named `pfx`
here). -/
structure ParsedName where
  pfx : String
  action : String
  baseName : String
deriving DecidableEq, Repr

/-- Embedding of `parseFilename(filename)` (constructZipper.js lines
12–41): strict grammar first; on failure split on `-`, and with fewer
than two parts fall back to `{ prefix: stem, action: 'unknown',
baseName: stem }`. -/
def parseFilename (filename : String) : ParsedName :=
  let stem := stemOf filename
  match parseStrict stem.data with
  | some (a, b, c) =>
      { pfx := String.mk a
        action := String.mk b
        baseName := String.mk (a ++ ('-' :: (b ++ ('_' :: c)))) }
  | none =>
      match splitAllChar '-' stem.data with
      | p0 :: p1 :: _ =>
          { pfx := String.mk p0
            action := String.mk ((splitAllChar '_' p1).headD p1)
            baseName := stem }
      | _ => { pfx := stem, action := "unknown", baseName := stem }

/-- Entry pushed into `fileGroups[baseName]` (constructZipper.js lines
123–128). -/
structure GroupedFile where
  filePath : String
  pfx : String
  action : String
  baseName : String
deriving DecidableEq, Repr

/-- Insertion into the `fileGroups` object: JS objects keep string
keys in insertion order, and each push appends to the group's array. -/
def addToGroups (groups : List (String × List GroupedFile)) (key : String)
    (f : GroupedFile) : List (String × List GroupedFile) :=
  match groups with
  | [] => [(key, [f])]
  | (k, members) :: rest =>
    if k = key then (k, members ++ [f]) :: rest
    else (k, members) :: addToGroups rest key f

/-- Grouping phase of `organizeFiles` (constructZipper.js lines
108–133): scan the flat source directory and group the files by the
`baseName` produced by `parseFilename`. -/
def organizeGroups (sourceDir : String) (files : List String) :
    List (String × List GroupedFile) :=
  files.foldl
    (fun gs name =>
      let p := parseFilename name
      addToGroups gs p.baseName ⟨sourceDir ++ "/" ++ name, p.pfx, p.action, p.baseName⟩)
    []

/-- Lookup of one group's member list in the grouping produced by
`organizeGroups` (the empty list when the key is absent), used to state
properties of individual archive groups. -/
def findGroup (groups : List (String × List GroupedFile)) (k : String) :
    List GroupedFile :=
  match groups with
  | [] => []
  | (k', ms) :: rest => if k' = k then ms else findGroup rest k

/-- Default worker bound `Math.min(32, (os.cpus().length || 1) + 4)`
(constructZipper.js line 144). -/
def defaultMaxConcurrent (cpuCount : Nat) : Nat :=
  min 32 ((if cpuCount = 0 then 1 else cpuCount) + 4)

/-- Batch loop of `organizeFiles` (constructZipper.js lines 150–173):
`for (let i = 0; i < zipTasks.length; i += batchSize)` slices the task
list into consecutive batches of `batchSize`, and each batch is fully
awaited (`Promise.allSettled`) before the next slice is taken.  The
fuel argument only forces termination; `zipBatches` supplies enough
fuel for the whole list whenever `batchSize > 0` (with `batchSize = 0`
the JS loop would never advance). -/
def batchLoop (batchSize : Nat) : Nat → List α → List (List α)
  | _, [] => []
  | 0, _ :: _ => []
  | fuel + 1, x :: xs =>
    ((x :: xs).take batchSize) :: batchLoop batchSize fuel ((x :: xs).drop batchSize)

/-- Batches of archive-write tasks issued by `organizeFiles`, in
order: within a batch all writes run concurrently, across batches
strictly sequentially, so the set of in-flight writes at any instant
is contained in a single batch. -/
def zipBatches (batchSize : Nat) (tasks : List α) : List (List α) :=
  batchLoop batchSize tasks.length tasks

/-! ## Helper lemmas -/

theorem sum_map_mul_left_right (l : List String) (f : String → ℚ) (c d : ℚ) :
    (l.map (fun a => c * f a * d)).sum = c * (l.map f).sum * d := by
  induction l with
  | nil => simp
  | cons x xs ih =>
    simp only [List.map_cons, List.sum_cons, ih]
    ring

theorem framesScan_eq_find (anims : List (Option Nat)) :
    framesScan anims = ((anims.filterMap id).find? (fun n => decide (1 < n))).getD 1 := by
  induction anims with
  | nil => rfl
  | cons o rest ih =>
    cases o with
    | none => simpa [framesScan] using ih
    | some n =>
      by_cases h : 1 < n
      · simp [framesScan, h, List.find?]
      · simp [framesScan, h, List.find?, ih]

/-! ## Claim theorems -/

/-- Claim C1: for every valid RenderRequest, if `start()` is called
while a session is already active (state not Idle), the call fails
with AlreadyRunning and the existing session's state (expected count,
start time, baseline count, Rendering state) is left completely
untouched. -/
theorem startRender_busy_fails_untouched (env : StartEnv)
    (settings : RenderSettings) (st : ControllerState)
    (h : st.isRendering = true) :
    startRender env settings st = (st, .error .alreadyRunning) := by
  simp [startRender, h]

/-- Witness for C1 at a concrete active session. -/
theorem startRender_busy_fails_untouched_witness :
    (⟨true, 42, 7, some 5, true⟩ : ControllerState).isRendering = true ∧
    startRender ⟨0, ⟨fun _ => .missing, fun _ => .missing⟩, .file "x" 0, true, true⟩
        ⟨"s", none, none, false⟩ ⟨true, 42, 7, some 5, true⟩ =
      (⟨true, 42, 7, some 5, true⟩, .error .alreadyRunning) :=
  ⟨rfl, startRender_busy_fails_untouched _ _ _ rfl⟩

/-- Counterexample to claim C2: on an animation file whose embedded
keyframe arrays have lengths 2 and 5 (in that order), the code uses 2
frames — the first length exceeding 1 — while the claimed "largest
keyframe-array length found" is 5. -/
theorem frames_first_not_largest :
    getFramesFromAnimationFile
        ⟨fun _ => .missing, fun _ => .scene [some 2, some 5]⟩ "anim.duf" = 2 ∧
    specLargestFrames (.scene [some 2, some 5]) = 5 ∧
    getFramesFromAnimationFile
        ⟨fun _ => .missing, fun _ => .scene [some 2, some 5]⟩ "anim.duf" ≠
      specLargestFrames (.scene [some 2, some 5]) := by
  refine ⟨rfl, rfl, ?_⟩
  decide

/-- Claim C2 as amended: for every animation descriptor file, the
frame count used by the Expected Output Calculator equals the first
keyframe-array length strictly greater than 1 found among the embedded
animations in file order, and defaults to 1 when no keyframe array
exceeds length 1, when no keyframe array or animation list is present,
or when the file is missing or unreadable (an empty path also yields
the default). -/
theorem frames_is_first_exceeding_one (fs : FS) (p : String) :
    getFramesFromAnimationFile fs p =
      if p = "" then 1
      else
        match fs.anim p with
        | .scene anims => ((anims.filterMap id).find? (fun n => decide (1 < n))).getD 1
        | .missing => 1
        | .unreadable => 1
        | .noScene => 1 := by
  by_cases hp : p = ""
  · simp [getFramesFromAnimationFile, hp]
  · simp only [getFramesFromAnimationFile, hp, if_false]
    cases h : fs.anim p with
    | scene anims => simp [framesOfFile, framesScan_eq_find]
    | missing => rfl
    | unreadable => rfl
    | noScene => rfl

/-- Claim C3: for all inputs, the expected-output total computed with
the shadow-variant flag set equals exactly twice the total computed
with the flag unset, and in general the result is
angles × Σ(frames per animation) × gearCount, doubled when the flag is
set (the sum ranges over the effective animation list, which is
`['static']` when none was supplied). -/
theorem calc_shadow_doubles_and_formula (fs : FS) (s : String)
    (a g : Option (List String)) :
    calculateTotalImages fs s a g true = 2 * calculateTotalImages fs s a g false ∧
    ∀ sh : Bool, calculateTotalImages fs s a g sh =
      (if sh then 2 else 1) *
        (getAnglesFromSubjectFile fs s *
          ((animsOrStatic a).map (fun p => (framesForEntry fs p : ℚ))).sum *
          (gearCount g : ℚ)) := by
  have hform : ∀ sh : Bool, calculateTotalImages fs s a g sh =
      (if sh then 2 else 1) *
        (getAnglesFromSubjectFile fs s *
          ((animsOrStatic a).map (fun p => (framesForEntry fs p : ℚ))).sum *
          (gearCount g : ℚ)) := by
    intro sh
    simp only [calculateTotalImages]
    rw [sum_map_mul_left_right (animsOrStatic a) (fun p => (framesForEntry fs p : ℚ))]
    cases sh <;> simp
  refine ⟨?_, hform⟩
  rw [hform true, hform false]
  norm_num

/-- Claim C4: even when the subject or any animation descriptor is
missing, unreadable, or malformed, the Expected Output Calculator
never throws and never aborts — each failed read is caught inside
`getAnglesFromSubjectFile` / `getFramesFromAnimationFile`, which log a
warning and substitute the default (16 angles, 1 frame), and the
computation still returns a total: with every descriptor read failing,
the total is exactly (shadow factor) × 16 × (number of animation
entries) × gearCount. -/
theorem calc_defaults_never_abort :
    (∀ (fs : FS) (s : String), (∀ q : ℚ, fs.subject s ≠ .number q) →
        getAnglesFromSubjectFile fs s = 16) ∧
    (∀ (fs : FS) (p : String), (∀ l, fs.anim p ≠ .scene l) →
        getFramesFromAnimationFile fs p = 1) ∧
    (∀ (fs : FS) (s : String) (a g : Option (List String)) (sh : Bool),
        (∀ q : ℚ, fs.subject s ≠ .number q) →
        (∀ (p : String) (l : List (Option Nat)), fs.anim p ≠ .scene l) →
        calculateTotalImages fs s a g sh =
          (if sh then 2 else 1) * 16 * ((animsOrStatic a).length : ℚ) * (gearCount g : ℚ)) := by
  have hangles : ∀ (fs : FS) (s : String), (∀ q : ℚ, fs.subject s ≠ .number q) →
      getAnglesFromSubjectFile fs s = 16 := by
    intro fs s hs
    by_cases h0 : s = ""
    · simp [getAnglesFromSubjectFile, h0]
    · simp only [getAnglesFromSubjectFile, h0, if_false]
      cases h : fs.subject s with
      | number q => exact absurd h (hs q)
      | missing => rfl
      | unreadable => rfl
      | noAngles => rfl
      | nonNumber => rfl
  have hframes : ∀ (fs : FS) (p : String), (∀ l, fs.anim p ≠ .scene l) →
      getFramesFromAnimationFile fs p = 1 := by
    intro fs p hp
    by_cases h0 : p = ""
    · simp [getFramesFromAnimationFile, h0]
    · simp only [getFramesFromAnimationFile, h0, if_false]
      cases h : fs.anim p with
      | scene l => exact absurd h (hp l)
      | missing => rfl
      | unreadable => rfl
      | noScene => rfl
  refine ⟨hangles, hframes, ?_⟩
  intro fs s a g sh hs ha
  have hentry : ∀ p : String, framesForEntry fs p = 1 := by
    intro p
    by_cases hb : p = "static" ∨ jsTrim p = ""
    · simp [framesForEntry, hb]
    · simp only [framesForEntry, hb, if_false]
      exact hframes fs (jsTrim p) (ha (jsTrim p))
  have hsum : ∀ l : List String,
      (l.map (fun p => ((framesForEntry fs p : ℚ)))).sum = (l.length : ℚ) := by
    intro l
    induction l with
    | nil => simp
    | cons x xs ih =>
      simp [hentry, ih]
      ring
  simp only [calculateTotalImages, hangles fs s hs]
  rw [sum_map_mul_left_right (animsOrStatic a) (fun p => (framesForEntry fs p : ℚ)) 16
    ((gearCount g : ℚ))]
  rw [hsum]
  cases sh
  · simp
  · simp
    ring

/-- Witness for C4: with every descriptor unreadable, two animations,
two gear entries, and shadows on, the calculator still returns a
total, namely 2 × 16 × 2 × 2 = 128. -/
theorem calc_defaults_never_abort_witness :
    calculateTotalImages ⟨fun _ => .unreadable, fun _ => .unreadable⟩ "subj"
        (some ["a1", "a2"]) (some ["g1", "g2"]) true = 128 := by
  have h := calc_defaults_never_abort.2.2 ⟨fun _ => .unreadable, fun _ => .unreadable⟩
    "subj" (some ["a1", "a2"]) (some ["g1", "g2"]) true
    (fun q hq => SubjectFile.noConfusion hq) (fun p l hl => AnimFile.noConfusion hl)
  have h2 : (animsOrStatic (some ["a1", "a2"])).length = 2 := by decide
  have h3 : gearCount (some ["g1", "g2"]) = 2 := by decide
  rw [h, h2, h3]
  norm_num

/-- Counterexample to claim C5: in a readable directory holding two
artifact files with equal modification time, the newest-mode result
has both entries and is not sorted strictly descending by modification
time (descending with a tie is the best the comparator
`(a, b) => b.mtime - a.mtime` can give). -/
theorem newest_ties_not_strict :
    findNewestImageSorted
        (.dir "r" true (.cons (.file "a.png" 5) (.cons (.file "b.png" 5) .nil))) =
      [⟨"r/a.png", 5⟩, ⟨"r/b.png", 5⟩] ∧
    strictDescByMtime (findNewestImageSorted
        (.dir "r" true (.cons (.file "a.png" 5) (.cons (.file "b.png" 5) .nil)))) = false := by
  decide

/-- Claim C5 as amended: for every directory tree, the newest-mode
lookup returns at most 100 entries regardless of tree size, and the
returned list is sorted descending (non-strictly: entries with equal
modification time may be adjacent) by modification time; an unreadable
subdirectory contributes nothing and the walk continues with its
siblings instead of aborting. -/
theorem newest_bounded_sorted_skips_unreadable :
    (∀ root : DirTree,
        (findNewestImage root).length ≤ 100 ∧
        List.Sorted mtimeGe (findNewestImageSorted root)) ∧
    (∀ (acc : List ImageEntry) (parent name : String) (entries rest : DirList),
        walkList acc parent (.cons (.dir name false entries) rest) =
          walkList acc parent rest) := by
  constructor
  · intro root
    constructor
    · have hlen : (findNewestImage root).length =
          ((sortByMtimeDesc (findNewestImageEntries root)).take MAX_FILES).length := by
        simp [findNewestImage]
      rw [hlen]
      exact List.length_take_le _ _
    · exact List.Pairwise.sublist (List.take_sublist _ _)
        (List.sorted_insertionSort mtimeGe (findNewestImageEntries root))
  · intro acc parent name entries rest
    simp [walkList, walkTree]

/-- Inversion for the ETA branch: a concrete completion instant is
produced only with work remaining and a positive average, and it is
the current time plus remaining × average (in ms). -/
theorem estimatedCompletionOf_completionAt_inv (now rem : ℚ) (avg : Option ℚ) (t : ℚ)
    (h : estimatedCompletionOf now rem avg = .completionAt t) :
    0 < rem ∧ ∃ a, avg = some a ∧ 0 < a ∧ t = now + rem * a * 1000 := by
  cases avg with
  | none =>
    dsimp only [estimatedCompletionOf] at h
    by_cases h0 : 0 < rem
    · rw [if_pos h0] at h
      exact absurd h (by simp)
    · rw [if_neg h0] at h
      exact absurd h (by simp)
  | some a =>
    dsimp only [estimatedCompletionOf] at h
    by_cases h0 : 0 < rem
    · rw [if_pos h0] at h
      by_cases ha : a ≠ 0 ∧ 0 < a
      · rw [if_pos ha] at h
        refine ⟨h0, a, rfl, ha.2, ?_⟩
        cases h
        rfl
      · rw [if_neg ha] at h
        exact absurd h (by simp)
    · rw [if_neg h0] at h
      exact absurd h (by simp)

/-- Positivity of the trailing average: the filtered interval list
only holds strictly positive values, so when it is non-empty its
average is strictly positive (in particular the division is by a
non-zero length). -/
theorem intervals_avg_pos (l : List (TimedFile × TimedFile))
    (h : ¬ (l.filterMap (fun p => if 0 < p.1.mtime - p.2.mtime
        then some (p.1.mtime - p.2.mtime) else none)).length = 0) :
    0 < (l.filterMap (fun p => if 0 < p.1.mtime - p.2.mtime
        then some (p.1.mtime - p.2.mtime) else none)).sum /
      ((l.filterMap (fun p => if 0 < p.1.mtime - p.2.mtime
        then some (p.1.mtime - p.2.mtime) else none)).length : ℚ) := by
  set intervals := l.filterMap (fun p => if 0 < p.1.mtime - p.2.mtime
    then some (p.1.mtime - p.2.mtime) else none) with hint
  have hpos : ∀ x ∈ intervals, (0 : ℚ) < x := by
    intro x hx
    rw [hint] at hx
    rcases List.mem_filterMap.1 hx with ⟨p, _, hp⟩
    by_cases hd : 0 < p.1.mtime - p.2.mtime
    · rw [if_pos hd] at hp
      cases hp
      exact hd
    · rw [if_neg hd] at hp
      exact absurd hp (by simp)
  have hne : intervals ≠ [] := by
    intro hnil
    rw [hnil] at h
    exact h rfl
  have hsum : 0 < intervals.sum := List.sum_pos intervals hpos hne
  have hlen : 0 < (intervals.length : ℚ) := by
    have hl := List.length_pos.2 hne
    exact_mod_cast hl
  exact div_pos hsum hlen

/-- Claim C6: whenever fewer than 2 artifacts with modification time
at or after session start exist in the output tree, the progress
sample's ETA is the "calculating" sentinel (remaining work permitting:
with no work remaining, the "complete" sentinel takes precedence, per
the claim's own last clause); the average-interval computation only
ever returns a strictly positive value, so no division by zero and no
zero/negative duration can occur, and every concrete ETA lies strictly
in the future; and when the remaining count is 0 the ETA is the
"complete" sentinel. -/
theorem eta_sentinels_and_positive_duration :
    (∀ (now : ℚ) (rst : Option Int) (total : ℚ) (ssc : Nat) (dir : DirTree),
        0 < (monitorTick now rst total ssc dir).remaining →
        (filesWithTimes rst dir).length < 2 →
        (monitorTick now rst total ssc dir).estimatedCompletion = .calculating) ∧
    (∀ (rst : Option Int) (dir : DirTree) (mf : Nat) (a : ℚ),
        calculateAverageRenderTime rst dir mf = some a → 0 < a) ∧
    (∀ (now : ℚ) (rst : Option Int) (total : ℚ) (ssc : Nat) (dir : DirTree) (t : ℚ),
        (monitorTick now rst total ssc dir).estimatedCompletion = .completionAt t →
        now < t) ∧
    (∀ (now : ℚ) (rst : Option Int) (total : ℚ) (ssc : Nat) (dir : DirTree),
        (monitorTick now rst total ssc dir).remaining = 0 →
        (monitorTick now rst total ssc dir).estimatedCompletion = .complete) := by
  have hproj : ∀ (now : ℚ) (rst : Option Int) (total : ℚ) (ssc : Nat) (dir : DirTree),
      (monitorTick now rst total ssc dir).estimatedCompletion =
        estimatedCompletionOf now (max 0 (total - (countImagesInDirectory dir : ℚ)))
          (calculateAverageRenderTime rst dir 10) := fun _ _ _ _ _ => rfl
  have hrem : ∀ (now : ℚ) (rst : Option Int) (total : ℚ) (ssc : Nat) (dir : DirTree),
      (monitorTick now rst total ssc dir).remaining =
        max 0 (total - (countImagesInDirectory dir : ℚ)) := fun _ _ _ _ _ => rfl
  have havg : ∀ (rst : Option Int) (dir : DirTree) (mf : Nat) (a : ℚ),
      calculateAverageRenderTime rst dir mf = some a → 0 < a := by
    intro rst dir mf a h
    simp only [calculateAverageRenderTime] at h
    split_ifs at h with h1 h2 h3
    rw [Option.some.injEq] at h
    subst h
    exact intervals_avg_pos _ h3
  have hcalc : ∀ (now : ℚ) (rst : Option Int) (total : ℚ) (ssc : Nat) (dir : DirTree),
      0 < (monitorTick now rst total ssc dir).remaining →
      (filesWithTimes rst dir).length < 2 →
      (monitorTick now rst total ssc dir).estimatedCompletion = .calculating := by
    intro now rst total ssc dir hpos hlt
    rw [hrem] at hpos
    rw [hproj]
    have hnone : calculateAverageRenderTime rst dir 10 = none := by
      simp only [calculateAverageRenderTime]
      rw [if_pos hlt]
    rw [hnone]
    dsimp only [estimatedCompletionOf]
    rw [if_pos hpos]
  have hfuture : ∀ (now : ℚ) (rst : Option Int) (total : ℚ) (ssc : Nat) (dir : DirTree)
      (t : ℚ), (monitorTick now rst total ssc dir).estimatedCompletion = .completionAt t →
      now < t := by
    intro now rst total ssc dir t h
    rw [hproj] at h
    obtain ⟨h0, a, _, ha, ht⟩ := estimatedCompletionOf_completionAt_inv _ _ _ _ h
    have hp : 0 < max 0 (total - (countImagesInDirectory dir : ℚ)) * a * 1000 := by
      have := mul_pos h0 ha
      linarith
    linarith [ht]
  have hcomplete : ∀ (now : ℚ) (rst : Option Int) (total : ℚ) (ssc : Nat) (dir : DirTree),
      (monitorTick now rst total ssc dir).remaining = 0 →
      (monitorTick now rst total ssc dir).estimatedCompletion = .complete := by
    intro now rst total ssc dir h0
    rw [hrem] at h0
    rw [hproj, h0]
    dsimp only [estimatedCompletionOf]
    simp
  exact ⟨hcalc, havg, hfuture, hcomplete⟩

/-- Witness for C6: an empty output tree (0 qualifying artifacts) with
5 images expected yields the "calculating" sentinel. -/
theorem eta_sentinels_witness :
    (monitorTick 0 none 5 0 (.dir "out" true .nil)).estimatedCompletion = .calculating := by
  apply eta_sentinels_and_positive_duration.1 0 none 5 0 (.dir "out" true .nil)
  · show (0 : ℚ) < max 0 (5 - ((0 : Nat) : ℚ))
    norm_num
  · show (filesWithTimes none (.dir "out" true .nil)).length < 2
    decide

/-- Splitting at the first occurrence fails exactly when the character
is absent. -/
theorem breakFirst_eq_none {c : Char} : ∀ {l : List Char},
    breakFirst c l = none ↔ c ∉ l := by
  intro l
  induction l with
  | nil => simp [breakFirst]
  | cons x xs ih =>
    by_cases hx : x = c
    · subst hx
      simp [breakFirst]
    · cases hbf : breakFirst c xs with
      | none =>
        have hmem := ih.mp hbf
        simp only [breakFirst, if_neg hx, hbf, List.mem_cons]
        constructor
        · intro _ hor
          rcases hor with h1 | h2
          · exact hx h1.symm
          · exact hmem h2
        · intro _
          trivial
      | some p =>
        have hcm : c ∈ xs := by
          by_contra hc
          rw [ih.mpr hc] at hbf
          cases hbf
        simp [breakFirst, if_neg hx, hbf, List.mem_cons, hcm]

/-- A successful first-occurrence split reassembles the list. -/
theorem breakFirst_append {c : Char} : ∀ {l a b : List Char},
    breakFirst c l = some (a, b) → l = a ++ c :: b := by
  intro l
  induction l with
  | nil => intro a b h; cases h
  | cons x xs ih =>
    intro a b h
    by_cases hx : x = c
    · rw [show breakFirst c (x :: xs) = some ([], xs) by simp [breakFirst, hx]] at h
      cases h
      simp [hx]
    · simp only [breakFirst, if_neg hx] at h
      cases hbf : breakFirst c xs with
      | none => rw [hbf] at h; cases h
      | some p =>
        obtain ⟨a', b'⟩ := p
        rw [hbf] at h
        cases h
        have hxs := ih hbf
        rw [hxs]
        simp

/-- A successful last-occurrence split reassembles the list. -/
theorem breakLast_append {c : Char} {l a b : List Char}
    (h : breakLast c l = some (a, b)) : l = a ++ c :: b := by
  unfold breakLast at h
  cases hbf : breakFirst c l.reverse with
  | none => rw [hbf] at h; cases h
  | some p =>
    obtain ⟨a0, b0⟩ := p
    rw [hbf] at h
    cases h
    have hrev := breakFirst_append hbf
    have : l = (a0 ++ c :: b0).reverse := by
      rw [← hrev, List.reverse_reverse]
    rw [this]
    simp

/-- Every character of the stem occurs in the original file name. -/
theorem stemOf_subset (filename : String) :
    ∀ ch ∈ (stemOf filename).data, ch ∈ filename.data := by
  intro ch hch
  unfold stemOf at hch
  cases hbl : breakLast '.' filename.data with
  | none => rwa [hbl] at hch
  | some p =>
    obtain ⟨a, b⟩ := p
    rw [hbl] at hch
    dsimp only at hch
    by_cases ha : a = []
    · rwa [if_pos ha] at hch
    · rw [if_neg ha] at hch
      rw [breakLast_append hbl]
      exact List.mem_append_left _ hch

/-- JS `split` on a character that does not occur returns the whole
list as its only part. -/
theorem splitAllChar_of_not_mem {c : Char} : ∀ {l : List Char},
    c ∉ l → splitAllChar c l = [l] := by
  intro l
  induction l with
  | nil => intro _; rfl
  | cons x xs ih =>
    intro h
    have hx : ¬ x = c := fun he => h (he ▸ List.mem_cons_self x xs)
    have hxs := ih (fun hc => h (List.mem_cons_of_mem _ hc))
    simp [splitAllChar, hx, hxs]

/-- A file name with no dash takes the length-1 fallback branch of
`parseFilename`: its own stem as prefix and key, action `'unknown'`. -/
theorem parseFilename_no_dash (name : String) (h : '-' ∉ name.data) :
    parseFilename name = ⟨stemOf name, "unknown", stemOf name⟩ := by
  have hstem : '-' ∉ (stemOf name).data := fun hc => h (stemOf_subset name _ hc)
  have hps : parseStrict (stemOf name).data = none := by
    unfold parseStrict
    rw [breakFirst_eq_none.mpr hstem]
  simp only [parseFilename, hps, splitAllChar_of_not_mem hstem]

/-- Group lookup after one insertion: inserting under `key` appends to
the group of `key` and leaves every other group unchanged. -/
theorem findGroup_addToGroups (gs : List (String × List GroupedFile))
    (key : String) (f : GroupedFile) (k : String) :
    findGroup (addToGroups gs key f) k =
      if key = k then findGroup gs k ++ [f] else findGroup gs k := by
  induction gs with
  | nil =>
    by_cases hk : key = k <;> simp [addToGroups, findGroup, hk]
  | cons g rest ih =>
    obtain ⟨k', ms⟩ := g
    by_cases h1 : k' = key
    · subst h1
      by_cases h2 : k' = k
      · subst h2
        simp [addToGroups, findGroup]
      · simp [addToGroups, findGroup, h2]
    · by_cases h2 : k' = k
      · subst h2
        have hne : ¬ key = k' := fun he => h1 he.symm
        simp [addToGroups, findGroup, h1, hne]
      · simp [addToGroups, findGroup, h1, h2, ih]

/-- Size of each archive group: the number of source files whose
parsed key equals the group's key (with the accumulator generalized
over the scan loop). -/
theorem findGroup_organizeGroups (dir : String) (files : List String) (k : String) :
    (findGroup (organizeGroups dir files) k).length =
      files.countP (fun n => (parseFilename n).baseName == k) := by
  have haux : ∀ (fl : List String) (gs : List (String × List GroupedFile)),
      (findGroup (fl.foldl (fun gs name =>
          addToGroups gs (parseFilename name).baseName
            ⟨dir ++ "/" ++ name, (parseFilename name).pfx, (parseFilename name).action,
              (parseFilename name).baseName⟩) gs) k).length =
        (findGroup gs k).length + fl.countP (fun n => (parseFilename n).baseName == k) := by
    intro fl
    induction fl with
    | nil => intro gs; simp
    | cons x xs ih =>
      intro gs
      simp only [List.foldl_cons, List.countP_cons]
      rw [ih, findGroup_addToGroups]
      by_cases hk : (parseFilename x).baseName = k
      · simp [hk]
        omega
      · simp [hk]
  have hrw : organizeGroups dir files = files.foldl (fun gs name =>
      addToGroups gs (parseFilename name).baseName
        ⟨dir ++ "/" ++ name, (parseFilename name).pfx, (parseFilename name).action,
          (parseFilename name).baseName⟩) [] := rfl
  rw [hrw, haux files []]
  simp [findGroup]

/-- Counterexample to claim C7: the two dash-free file names `foo.png`
and `foo.webp` share the stem `foo`, so the fallback produces one
group with two members — not a single-member group. -/
theorem nodash_group_two_members :
    ('-' ∈ "foo.png".data) = False ∧
    (organizeGroups "s" ["foo.png", "foo.webp"]).map (fun g => (g.1, g.2.length)) =
      [("foo", 2)] := by
  constructor
  · simp only [eq_iff_iff, iff_false]
    decide
  · decide

/-- Claim C7 as amended: for the source files {a-b_1-001.x, a-b_1-002.x,
a-c_2-001.x} the archiving pipeline produces exactly two archive
groups — key (a,b,1) with 2 members and key (a,c,2) with 1 member; a
filename containing no '-' parses to the fallback record keyed by the
filename's own stem (prefix = stem, action = 'unknown'); and every
group's member count equals the number of source files sharing its
parsed key, so the fallback group is single-member exactly when no
other file in the directory shares the same stem key. -/
theorem archive_groups_example_and_fallback :
    ((organizeGroups "src" ["a-b_1-001.x", "a-b_1-002.x", "a-c_2-001.x"]).map
        (fun g => (g.1, g.2.map GroupedFile.filePath)) =
      [("a-b_1", ["src/a-b_1-001.x", "src/a-b_1-002.x"]),
       ("a-c_2", ["src/a-c_2-001.x"])] ∧
     parseFilename "a-b_1-001.x" = ⟨"a", "b", "a-b_1"⟩ ∧
     parseFilename "a-c_2-001.x" = ⟨"a", "c", "a-c_2"⟩) ∧
    (∀ name : String, '-' ∉ name.data →
        parseFilename name = ⟨stemOf name, "unknown", stemOf name⟩) ∧
    (∀ (dir : String) (files : List String) (k : String),
        (findGroup (organizeGroups dir files) k).length =
          files.countP (fun n => (parseFilename n).baseName == k)) :=
  ⟨⟨by decide, by decide, by decide⟩, parseFilename_no_dash, findGroup_organizeGroups⟩

/-- Witness for C7 (amended): the fallback branch at the concrete
dash-free name `plain.png`. -/
theorem archive_groups_example_and_fallback_witness :
    parseFilename "plain.png" = ⟨"plain", "unknown", "plain"⟩ :=
  archive_groups_example_and_fallback.2.1 "plain.png" (by decide)

/-- Every slice the batch loop takes has at most `batchSize` tasks. -/
theorem batchLoop_length_le {α : Type} (bs : Nat) : ∀ (fuel : Nat) (l : List α),
    ∀ b ∈ batchLoop bs fuel l, b.length ≤ bs := by
  intro fuel
  induction fuel with
  | zero =>
    intro l b hb
    cases l <;> simp [batchLoop] at hb
  | succ n ih =>
    intro l b hb
    cases l with
    | nil => simp [batchLoop] at hb
    | cons x xs =>
      simp only [batchLoop] at hb
      rcases List.mem_cons.1 hb with h1 | h2
      · rw [h1]
        exact List.length_take_le _ _
      · exact ih _ b h2

/-- With a positive batch size and enough fuel, the batch loop
partitions the task list exactly: concatenating the batches gives the
original list back, in order. -/
theorem batchLoop_join {α : Type} (bs : Nat) (hbs : 0 < bs) : ∀ (fuel : Nat) (l : List α),
    l.length ≤ fuel → (batchLoop bs fuel l).flatten = l := by
  intro fuel
  induction fuel with
  | zero =>
    intro l hl
    have hnil : l = [] := List.eq_nil_of_length_eq_zero (Nat.le_zero.mp hl)
    subst hnil
    simp [batchLoop]
  | succ n ih =>
    intro l hl
    cases l with
    | nil => simp [batchLoop]
    | cons x xs =>
      simp only [batchLoop, List.flatten_cons]
      rw [ih ((x :: xs).drop bs) (by
        simp only [List.length_drop, List.length_cons]
        simp only [List.length_cons] at hl
        omega)]
      exact List.take_append_drop bs (x :: xs)

/-- Claim C8: for every group list and every positive maxConcurrent
bound, the archiving pipeline's batch schedule never puts more than
maxConcurrent archive-write tasks in one batch, the batches partition
the group list in order (each batch is awaited in full before the next
slice is taken, so the in-flight set is always contained in one
batch), and the default bound min(32, cpuCount+4) is always positive
(so the default configuration satisfies the premise). -/
theorem zip_batches_bounded :
    (∀ maxConcurrent : Nat, 0 < maxConcurrent →
      ∀ groups : List (String × List GroupedFile),
        (∀ batch ∈ zipBatches maxConcurrent groups, batch.length ≤ maxConcurrent) ∧
        (zipBatches maxConcurrent groups).flatten = groups) ∧
    (∀ cpuCount : Nat, 0 < defaultMaxConcurrent cpuCount) := by
  constructor
  · intro mc hmc groups
    exact ⟨fun b hb => batchLoop_length_le mc _ _ b hb,
      batchLoop_join mc hmc _ _ le_rfl⟩
  · intro cpu
    unfold defaultMaxConcurrent
    split <;> omega

/-- Witness for C8: with maxConcurrent = 2 and 5 groups the schedule
is [2, 2, 1] — never more than 2 writes in flight. -/
theorem zip_batches_bounded_witness :
    (∀ batch ∈ zipBatches 2 [("g1", ([] : List GroupedFile)), ("g2", []), ("g3", []),
        ("g4", []), ("g5", [])], batch.length ≤ 2) ∧
    (zipBatches 2 [("g1", ([] : List GroupedFile)), ("g2", []), ("g3", []), ("g4", []),
        ("g5", [])]).map List.length = [2, 2, 1] :=
  ⟨(zip_batches_bounded.1 2 (by decide) _).1, by decide⟩

/-- Counterexample to claim C9: with the cleanup directory locked
through every removal attempt, the retries exhaust, yet `stopRender`
hands the caller the very same `{ success: true }` object it returns
when the cleanup succeeds — the DirectoryCleanup failure is only
logged (`console.error`), never reported to the caller. -/
theorem cleanup_failure_not_reported_to_caller :
    rmSyncRecursive (fun _ => true) RM_MAX_RETRIES = false ∧
    (stopRender ⟨true, fun _ => true, 0⟩ ⟨true, 10, 0, some 0, true⟩).cleanupFailureLogged
      = true ∧
    (stopRender ⟨true, fun _ => true, 0⟩ ⟨true, 10, 0, some 0, true⟩).result.success = true ∧
    (stopRender ⟨true, fun _ => true, 0⟩ ⟨true, 10, 0, some 0, true⟩).result =
      (stopRender ⟨true, fun _ => false, 0⟩ ⟨true, 10, 0, some 0, true⟩).result ∧
    (stopRender ⟨true, fun _ => true, 0⟩ ⟨true, 10, 0, some 0, true⟩).state.isRendering
      = false :=
  ⟨by decide, by decide, rfl, rfl, rfl⟩

/-- Succeeding within the retry budget: if the lock is released from
attempt `k` on and `k` is within the budget, the retry loop reaches a
successful attempt. -/
theorem rmRetryLoop_succeeds (k : Nat) : ∀ (retries attempt : Nat), k ≤ attempt + retries →
    rmRetryLoop (fun i => decide (i < k)) attempt retries = true := by
  intro retries
  induction retries with
  | zero =>
    intro attempt h
    have hnl : ¬ attempt < k := by omega
    simp [rmRetryLoop, hnl]
  | succ n ih =>
    intro attempt h
    by_cases ha : attempt < k
    · simp only [rmRetryLoop]
      rw [if_pos]
      · exact ih (attempt + 1) (by omega)
      · simp [ha]
    · simp [rmRetryLoop, ha]

/-- Claim C9 as amended: after `stop()`, removal of the auxiliary
service's working directory is attempted through the runtime's builtin
recursive removal with a bounded retry budget (`maxRetries = 10`,
`retryDelay = 1000` ms, growing linearly per Node's contract); if the
directory is released at any attempt within the budget the cleanup
succeeds; if it is still locked when the attempts run out, the failure
is logged at error level but is not surfaced in the call's return
value — the caller receives `{ success: true }` — and the session
still returns to Idle. -/
theorem stop_cleanup_bounded_retries :
    (∀ k : Nat, k ≤ RM_MAX_RETRIES →
        rmSyncRecursive (fun i => decide (i < k)) RM_MAX_RETRIES = true) ∧
    (∀ lockedAt : Nat → Bool, rmSyncRecursive lockedAt RM_MAX_RETRIES = false →
        ∀ (killed : Nat) (st : ControllerState),
          (stopRender ⟨true, lockedAt, killed⟩ st).cleanupFailureLogged = true ∧
          (stopRender ⟨true, lockedAt, killed⟩ st).result.success = true ∧
          (stopRender ⟨true, lockedAt, killed⟩ st).state.isRendering = false) ∧
    (∀ (env : StopEnv) (st : ControllerState),
        (stopRender env st).result.success = true ∧
        (stopRender env st).state.isRendering = false ∧
        (stopRender env st).state.fileMonitoring = false) := by
  refine ⟨?_, ?_, ?_⟩
  · intro k hk
    exact rmRetryLoop_succeeds k RM_MAX_RETRIES 0 (by omega)
  · intro lockedAt h killed st
    refine ⟨?_, rfl, rfl⟩
    simp [stopRender, stopIrayServer, h]
  · intro env st
    exact ⟨rfl, rfl, rfl⟩

/-- Witness for C9 (amended): a lock released at attempt 7 (within the
budget of 10 retries) lets the cleanup succeed. -/
theorem stop_cleanup_bounded_retries_witness :
    rmSyncRecursive (fun i => decide (i < 7)) RM_MAX_RETRIES = true :=
  stop_cleanup_bounded_retries.1 7 (by decide)

/-- Claim C10: if `start()` passes the Idle check but then throws
before spawning any worker (renderer executable or driver script
missing — both checks precede the spawn loop), the controller is left
in the Rendering state with the session fields (start time, expected
count, baseline count) already mutated, the IPC wrapper reports
`success: false` without any rollback, a subsequent `start()` fails
with AlreadyRunning even though no worker process exists, and `stop()`
resets the state. -/
theorem start_throw_leaves_rendering (env : StartEnv) (settings : RenderSettings)
    (st : ControllerState) (hidle : st.isRendering = false)
    (hmiss : env.dazExecutableExists = false ∨ env.renderScriptExists = false) :
    ((startRender env settings st).2 = .error .dazStudioNotFound ∨
      (startRender env settings st).2 = .error .renderScriptNotFound) ∧
    (startRender env settings st).1.isRendering = true ∧
    (startRender env settings st).1.renderStartTime = some env.now ∧
    (startRender env settings st).1.initialTotalImages =
      calculateTotalImages env.fs settings.subject settings.animations settings.gear
        settings.render_shadows ∧
    (startRender env settings st).1.sessionStartImageCount =
      countImagesInDirectory env.outputDir ∧
    (startRenderHandler env settings st).2.success = false ∧
    (∀ (env2 : StartEnv) (settings2 : RenderSettings),
        startRender env2 settings2 (startRender env settings st).1 =
          ((startRender env settings st).1, .error .alreadyRunning)) ∧
    (∀ senv : StopEnv,
        (stopRender senv (startRender env settings st).1).state.isRendering = false) := by
  have key : ∃ e, (e = StartError.dazStudioNotFound ∨ e = StartError.renderScriptNotFound) ∧
      startRender env settings st =
        ({ st with
            isRendering := true
            renderStartTime := some env.now
            initialTotalImages := calculateTotalImages env.fs settings.subject
              settings.animations settings.gear settings.render_shadows
            sessionStartImageCount := countImagesInDirectory env.outputDir },
          .error e) := by
    rcases hmiss with hdaz | hscript
    · exact ⟨.dazStudioNotFound, Or.inl rfl, by simp [startRender, hidle, hdaz]⟩
    · by_cases hdaz : env.dazExecutableExists = false
      · exact ⟨.dazStudioNotFound, Or.inl rfl, by simp [startRender, hidle, hdaz]⟩
      · have hdaz' : env.dazExecutableExists = true := by
          simpa using hdaz
        exact ⟨.renderScriptNotFound, Or.inr rfl,
          by simp [startRender, hidle, hdaz', hscript]⟩
  obtain ⟨e, he, hsr⟩ := key
  refine ⟨?_, ?_, ?_, ?_, ?_, ?_, ?_, ?_⟩
  · rcases he with he | he <;> rw [hsr, he]
    · exact Or.inl rfl
    · exact Or.inr rfl
  · rw [hsr]
  · rw [hsr]
  · rw [hsr]
  · rw [hsr]
  · simp [startRenderHandler, hsr]
  · intro env2 settings2
    rw [hsr]
    simp [startRender]
  · intro senv
    rfl

/-- Witness for C10: renderer executable missing on an idle
controller — the session is left marked as rendering. -/
theorem start_throw_leaves_rendering_witness :
    (startRender ⟨3, ⟨fun _ => .missing, fun _ => .missing⟩, .dir "out" true .nil,
        false, true⟩ ⟨"s", none, none, false⟩ ⟨false, 0, 0, none, false⟩).1.isRendering
      = true :=
  (start_throw_leaves_rendering _ _ _ rfl (Or.inl rfl)).2.1

end Overlord
